import Mathlib

/-!
Verification of the safe streaming-stage components of `io/stream/safe.go`:
the Safe Producer Stage (`SafeIOStreamWriter`) and the Safe Transform Stage
(`SafeIOStreamHandler`).

The channel primitives (`IOStream`, `ErrorPasser`) and the `Datapack` unit are
declared elsewhere in the repository and are not part of the given source; their
operational contracts are modelled from the spec (sections 3, 4.1 and 4.2).
The two stage drivers are translated from `safe.go` as trace-producing
functions: every channel operation a driver performs is recorded as an event in
order, producer and handler calls are driven by explicit scripts (a script
entry of the form `.error info` models a call that raises a runtime fault,
i.e. a Go panic carrying `info`), and the consumer side of the output data
channel is an oracle giving the result of each blocking `Write` call.
-/

namespace SafeStream

/-- A panic payload: the value seen by `recover()`. -/
abbrev PanicInfo := Nat

/-- Error values flowing through the pipeline.  `user` is an ordinary error
value returned by a producer or a handler; `writerPanic` models the
`fmt.Errorf("SafeIOStreamWriter panicked, panic info = %v", r)` wrapper built
at `safe.go:32`, and `handlerPanic` the
`fmt.Errorf("SafeIOStreamHandler panicked, err = %v", r)` wrapper built at
`safe.go:117`.  A wrapped panic error is a fresh error value, distinct from
every user error. -/
inductive GoErr where
  | user : Nat → GoErr
  | writerPanic : PanicInfo → GoErr
  | handlerPanic : PanicInfo → GoErr
deriving DecidableEq

/-- Modelled from the spec: a `Datapack` (spec section 3) is an opaque unit
carrying a readable byte stream (`ReadCloser()`, which may be nil — modelled by
`none`) and a context (`Context()`).  Byte contents are opaque, so a stream is
identified by a number. -/
structure Datapack where
  readCloser : Option Nat
  ctx : Nat
deriving DecidableEq

/-- The result of one successful (non-panicking) call to
`DatapackProducer.Next()` (`safe.go:10`): `(datapack, hasNext, err)`. -/
structure NextRes where
  datapack : Option Datapack
  hasNext : Bool
  err : Option GoErr
deriving DecidableEq

/-- A producer behaviour: the sequence of results of successive `Next()`
calls.  `.error info` models a call that panics with payload `info`. -/
abbrev ProducerScript := List (Except PanicInfo NextRes)

/-- Events performed by the `SafeIOStreamWriter` driving goroutine
(`safe.go:28-57`), in program order.  `write d delivered` records a call
`outputStream.Write(d)`; `delivered = true` means the call returned
`streamClosed = false`, i.e. the single reader accepted the item (modelled
from spec section 4.1: a `Write` that observes the channel closed reports
`alreadyClosed = true` and the item is not delivered). -/
inductive WEvent where
  | next : WEvent
  | write : Datapack → Bool → WEvent
  | put : GoErr → WEvent
  | closeErr : WEvent
  | closeData : WEvent
deriving DecidableEq

/-- How the `SafeIOStreamWriter` main loop (`safe.go:40-55`) ended:
`normal` by a `break`, `panicked` by a runtime fault inside the loop,
`exhausted` means the finite script ran out before the loop stopped (the model
covers only the events up to that point; real code would keep calling the
producer). -/
inductive WriterEnd where
  | normal : WriterEnd
  | panicked : PanicInfo → WriterEnd
  | exhausted : WriterEnd
deriving DecidableEq

/-- The main loop of `SafeIOStreamWriter.Start` (`safe.go:40-55`), translated
line by line.  Each iteration: call `Next()`; on a non-null error, `Put` it and
break; on a null datapack, `continue` (note: without consulting `hasNext`);
otherwise `Write` the datapack and break when `!hasNext || streamClosed`.
`wclosed i` is the `streamClosed` result of the i-th `Write` performed from
this point on (the oracle is shifted by one on each accepted write). -/
def writerLoop : ProducerScript → (Nat → Bool) → List WEvent × WriterEnd
  | [], _ => ([], WriterEnd.exhausted)
  | Except.error info :: _, _ => ([WEvent.next], WriterEnd.panicked info)
  | Except.ok r :: rest, wclosed =>
      match r.err with
      | some e => ([WEvent.next, WEvent.put e], WriterEnd.normal)
      | none =>
        match r.datapack with
        | none =>
            let p := writerLoop rest wclosed
            (WEvent.next :: p.1, p.2)
        | some d =>
            if wclosed 0 then ([WEvent.next, WEvent.write d false], WriterEnd.normal)
            else if !r.hasNext then ([WEvent.next, WEvent.write d true], WriterEnd.normal)
            else
              let p := writerLoop rest (fun i => wclosed (i + 1))
              (WEvent.next :: WEvent.write d true :: p.1, p.2)

/-- The full event trace of the goroutine launched by
`SafeIOStreamWriter.Start` (`safe.go:28-57`): the main loop, then the deferred
block (`safe.go:30-38`) — on a recovered panic, `Put` the wrapped panic error;
in every case close the error channel, then the data channel. -/
def writerRun (s : ProducerScript) (wclosed : Nat → Bool) : List WEvent :=
  match writerLoop s wclosed with
  | (evs, WriterEnd.panicked info) =>
      evs ++ [WEvent.put (GoErr.writerPanic info), WEvent.closeErr, WEvent.closeData]
  | (evs, _) => evs ++ [WEvent.closeErr, WEvent.closeData]

/-- The items actually delivered to the output data channel, in order
(accepted `Write` calls). -/
def delivered (t : List WEvent) : List Datapack :=
  t.filterMap fun e =>
    match e with
    | WEvent.write d true => some d
    | _ => none

/-- The items whose `Write` observed the channel already closed. -/
def rejected (t : List WEvent) : List Datapack :=
  t.filterMap fun e =>
    match e with
    | WEvent.write d false => some d
    | _ => none

/-- The errors put on the output error channel, in order. -/
def putErrs (t : List WEvent) : List GoErr :=
  t.filterMap fun e =>
    match e with
    | WEvent.put e₀ => some e₀
    | _ => none

/-- The number of `Next()` calls made to the producer. -/
def nextCount (t : List WEvent) : Nat :=
  (t.filter fun e =>
    match e with
    | WEvent.next => true
    | _ => false).length

lemma delivered_append (a b : List WEvent) :
    delivered (a ++ b) = delivered a ++ delivered b :=
  List.filterMap_append a b _

lemma rejected_append (a b : List WEvent) :
    rejected (a ++ b) = rejected a ++ rejected b :=
  List.filterMap_append a b _

lemma putErrs_append (a b : List WEvent) :
    putErrs (a ++ b) = putErrs a ++ putErrs b :=
  List.filterMap_append a b _

lemma nextCount_append (a b : List WEvent) :
    nextCount (a ++ b) = nextCount a + nextCount b := by
  simp [nextCount, List.filter_append]

/-- The cleanup suffix contributes no `Next` calls. -/
lemma nextCount_writerRun (s : ProducerScript) (w : Nat → Bool) :
    nextCount (writerRun s w) = nextCount (writerLoop s w).1 := by
  unfold writerRun
  rcases h : writerLoop s w with ⟨evs, out⟩
  cases out <;> simp [h, nextCount_append, nextCount]

lemma nextCount_cons_next (l : List WEvent) :
    nextCount (WEvent.next :: l) = nextCount l + 1 := by
  simp [nextCount, List.filter_cons]

lemma nextCount_cons_write (d : Datapack) (b : Bool) (l : List WEvent) :
    nextCount (WEvent.write d b :: l) = nextCount l := by
  simp [nextCount, List.filter_cons]

lemma nextCount_cons_put (e : GoErr) (l : List WEvent) :
    nextCount (WEvent.put e :: l) = nextCount l := by
  simp [nextCount, List.filter_cons]

lemma nextCount_nil : nextCount [] = 0 := rfl

/-- Helper for stating C2: the loop, once started at a script position holding
a regular producer result that signals a stop condition, makes no further
producer calls.  The stop condition of the amended claim: a non-null error, or
`hasNext = false` together with a non-null datapack. -/
lemma writerLoop_stop (s : ProducerScript) (w : Nat → Bool) (i : Nat) (r : NextRes)
    (hi : s.get? i = some (Except.ok r))
    (hstop : r.err ≠ none ∨ (r.hasNext = false ∧ r.datapack ≠ none)) :
    nextCount (writerLoop s w).1 ≤ i + 1 := by
  induction s generalizing i w with
  | nil => simp at hi
  | cons hd tl ih =>
    cases i with
    | zero =>
      simp only [List.get?] at hi
      injection hi with hi
      subst hi
      rcases her : r.err with _ | e
      · rcases hstop with hne | ⟨hmore, hdp⟩
        · exact absurd her hne
        · rcases hdp₂ : r.datapack with _ | d
          · exact absurd hdp₂ hdp
          · by_cases hw : w 0
            · simp only [writerLoop, her, hdp₂, hw, if_true]
              rw [nextCount_cons_next, nextCount_cons_write, nextCount_nil]
            · simp only [writerLoop, her, hdp₂, hw, if_false, Bool.false_eq_true,
                hmore, Bool.not_false, if_true]
              rw [nextCount_cons_next, nextCount_cons_write, nextCount_nil]
      · simp only [writerLoop, her]
        rw [nextCount_cons_next, nextCount_cons_put, nextCount_nil]
    | succ i₀ =>
      simp only [List.get?] at hi
      cases hd with
      | error info =>
        simp only [writerLoop]
        rw [nextCount_cons_next, nextCount_nil]
        omega
      | ok r₀ =>
        rcases her : r₀.err with _ | e
        · rcases hdp : r₀.datapack with _ | d
          · have hrec := ih w i₀ hi
            simp only [writerLoop, her, hdp]
            rw [nextCount_cons_next]
            omega
          · by_cases hw : w 0
            · simp only [writerLoop, her, hdp, hw, if_true]
              rw [nextCount_cons_next, nextCount_cons_write, nextCount_nil]
              omega
            · by_cases hm : r₀.hasNext
              · have hrec := ih (fun j => w (j + 1)) i₀ hi
                simp only [writerLoop, her, hdp, hw, if_false, Bool.false_eq_true,
                  hm, Bool.not_true]
                rw [nextCount_cons_next, nextCount_cons_write]
                omega
              · simp only [Bool.not_eq_true] at hm
                simp only [writerLoop, her, hdp, hw, if_false, Bool.false_eq_true,
                  hm, Bool.not_false, if_true]
                rw [nextCount_cons_next, nextCount_cons_write, nextCount_nil]
                omega
        · simp only [writerLoop, her]
          rw [nextCount_cons_next, nextCount_cons_put, nextCount_nil]
          omega

/-- C2, amended: once a call to the producer's `Next` returns a non-null
error, or returns `hasMore = false` together with a *non-null* item, the Safe
Producer Stage's driving loop never calls the producer again.  (When the
returned item is null the loop continues regardless of `hasMore`.) -/
theorem C2_amended_stops (s : ProducerScript) (w : Nat → Bool) (i : Nat) (r : NextRes)
    (hi : s.get? i = some (Except.ok r))
    (hstop : r.err ≠ none ∨ (r.hasNext = false ∧ r.datapack ≠ none)) :
    nextCount (writerRun s w) ≤ i + 1 := by
  rw [nextCount_writerRun]
  exact writerLoop_stop s w i r hi hstop

/-- Witness for C2_amended_stops at a concrete one-call producer. -/
theorem C2_amended_stops_witness :
    nextCount (writerRun [Except.ok ⟨some ⟨some 0, 0⟩, false, none⟩]
      (fun _ => false)) ≤ 0 + 1 :=
  C2_amended_stops [Except.ok ⟨some ⟨some 0, 0⟩, false, none⟩] (fun _ => false) 0
    ⟨some ⟨some 0, 0⟩, false, none⟩ rfl (Or.inr ⟨rfl, by simp⟩)

/-- C2 is false as stated: a producer whose first call returns
`(null, hasMore = false, no error)` is called a second time by the loop
(`safe.go:47-49` executes `continue` on a null datapack before `hasNext` is
consulted). -/
theorem C2_counterexample :
    ([Except.ok ⟨none, false, none⟩, Except.ok ⟨some ⟨some 0, 0⟩, false, none⟩] :
        ProducerScript).get? 0 = some (Except.ok ⟨none, false, none⟩)
    ∧ nextCount (writerRun
        [Except.ok ⟨none, false, none⟩, Except.ok ⟨some ⟨some 0, 0⟩, false, none⟩]
        (fun _ => false)) = 2 :=
  ⟨rfl, rfl⟩

/-- A producer that yields the given non-null items with `hasNext = true` for
all but the last one, `hasNext = false` for the last, and no error. -/
def mkExhaustScript : List Datapack → ProducerScript
  | [] => []
  | d :: rest => Except.ok ⟨some d, !rest.isEmpty, none⟩ :: mkExhaustScript rest

/-- A producer that yields every given non-null item with `hasNext = true` and
no error. -/
def allMore (ds : List Datapack) : ProducerScript :=
  ds.map fun d => Except.ok ⟨some d, true, none⟩

/-- A producer that yields the given items with `hasNext = true`, then returns
a non-null error on the following call. -/
def mkErrScript (ds : List Datapack) (e : GoErr) : ProducerScript :=
  allMore ds ++ [Except.ok ⟨none, true, some e⟩]

lemma delivered_cons_next (l : List WEvent) :
    delivered (WEvent.next :: l) = delivered l := by
  simp [delivered]

lemma delivered_cons_write_true (d : Datapack) (l : List WEvent) :
    delivered (WEvent.write d true :: l) = d :: delivered l := by
  simp [delivered]

lemma putErrs_cons_next (l : List WEvent) :
    putErrs (WEvent.next :: l) = putErrs l := by
  simp [putErrs]

lemma putErrs_cons_write (d : Datapack) (b : Bool) (l : List WEvent) :
    putErrs (WEvent.write d b :: l) = putErrs l := by
  cases b <;> simp [putErrs]

lemma rejected_cons_next (l : List WEvent) :
    rejected (WEvent.next :: l) = rejected l := by
  simp [rejected]

lemma rejected_cons_write_true (d : Datapack) (l : List WEvent) :
    rejected (WEvent.write d true :: l) = rejected l := by
  simp [rejected]

/-- On an exhausting script with a consumer that never closes, the main loop
delivers every item, puts no error, and ends normally. -/
lemma writerLoop_exhaust (ds : List Datapack) (hne : ds ≠ []) :
    delivered (writerLoop (mkExhaustScript ds) (fun _ => false)).1 = ds
    ∧ putErrs (writerLoop (mkExhaustScript ds) (fun _ => false)).1 = []
    ∧ (writerLoop (mkExhaustScript ds) (fun _ => false)).2 = WriterEnd.normal := by
  induction ds with
  | nil => exact absurd rfl hne
  | cons d rest ih =>
    cases rest with
    | nil =>
      refine ⟨?_, ?_, ?_⟩ <;>
        simp [mkExhaustScript, writerLoop, delivered, putErrs]
    | cons d₂ r₂ =>
      obtain ⟨h1, h2, h3⟩ := ih (by simp)
      refine ⟨?_, ?_, ?_⟩ <;>
        simp [mkExhaustScript, writerLoop, delivered_cons_next,
          delivered_cons_write_true, putErrs_cons_next, putErrs_cons_write,
          h1, h2, h3, delivered, putErrs] at *
      · exact h1
      · exact h2
      · exact h3

/-- C6: for a producer yielding N ≥ 1 non-null items with `hasMore = true` on
calls 1..N-1 and `hasMore = false` on call N and no errors, the Safe Producer
Stage delivers exactly those N items in order on its output data channel, puts
no error, and then closes its error channel followed by its data channel (so
the reader observes closure and the error channel reports done with no
errors). -/
theorem C6_clean_production (ds : List Datapack) (hne : ds ≠ []) :
    delivered (writerRun (mkExhaustScript ds) (fun _ => false)) = ds
    ∧ putErrs (writerRun (mkExhaustScript ds) (fun _ => false)) = []
    ∧ ∃ pre, writerRun (mkExhaustScript ds) (fun _ => false)
        = pre ++ [WEvent.closeErr, WEvent.closeData] := by
  obtain ⟨h1, h2, h3⟩ := writerLoop_exhaust ds hne
  unfold writerRun
  rcases hl : writerLoop (mkExhaustScript ds) (fun _ => false) with ⟨evs, out⟩
  rw [hl] at h1 h2 h3
  simp only at h1 h2 h3
  subst h3
  refine ⟨?_, ?_, ⟨evs, rfl⟩⟩
  · rw [delivered_append, h1]; simp [delivered]
  · rw [putErrs_append, h2]; simp [putErrs]

/-- Witness for C6_clean_production on a concrete two-item producer. -/
theorem C6_clean_production_witness :
    delivered (writerRun (mkExhaustScript [⟨some 0, 0⟩, ⟨some 1, 1⟩])
        (fun _ => false)) = [⟨some 0, 0⟩, ⟨some 1, 1⟩]
    ∧ putErrs (writerRun (mkExhaustScript [⟨some 0, 0⟩, ⟨some 1, 1⟩])
        (fun _ => false)) = []
    ∧ ∃ pre, writerRun (mkExhaustScript [⟨some 0, 0⟩, ⟨some 1, 1⟩])
        (fun _ => false) = pre ++ [WEvent.closeErr, WEvent.closeData] :=
  C6_clean_production [⟨some 0, 0⟩, ⟨some 1, 1⟩] (by simp)

/-- On a script of items with `hasNext = true` followed by an erroring call,
with a consumer that never closes, the loop delivers all items, puts exactly
the producer's error, and ends normally. -/
lemma writerLoop_errAt (ds : List Datapack) (e : GoErr) (w : Nat → Bool)
    (hw : ∀ i, w i = false) :
    delivered (writerLoop (mkErrScript ds e) w).1 = ds
    ∧ putErrs (writerLoop (mkErrScript ds e) w).1 = [e]
    ∧ (writerLoop (mkErrScript ds e) w).2 = WriterEnd.normal := by
  induction ds generalizing w with
  | nil =>
    refine ⟨?_, ?_, ?_⟩ <;>
      simp [mkErrScript, allMore, writerLoop, delivered, putErrs]
  | cons d rest ih =>
    obtain ⟨h1, h2, h3⟩ := ih (fun i => w (i + 1)) (fun i => hw (i + 1))
    have hw0 : w 0 = false := hw 0
    have hcons : mkErrScript (d :: rest) e
        = Except.ok ⟨some d, true, none⟩ :: mkErrScript rest e := rfl
    rw [hcons]
    refine ⟨?_, ?_, ?_⟩ <;>
      simp only [writerLoop, hw0, Bool.false_eq_true, if_false, Bool.not_true]
    · rw [delivered_cons_next, delivered_cons_write_true, h1]
    · rw [putErrs_cons_next, putErrs_cons_write, h2]
    · exact h3

/-- C7: for a producer whose k-th call returns a non-null error, all earlier
calls returning non-null items with `hasMore = true` and no error, the Safe
Producer Stage delivers exactly the first k-1 items, puts exactly that one
error on its error channel, and then closes the error channel followed by the
data channel. -/
theorem C7_producer_error (ds : List Datapack) (e : GoErr) :
    delivered (writerRun (mkErrScript ds e) (fun _ => false)) = ds
    ∧ putErrs (writerRun (mkErrScript ds e) (fun _ => false)) = [e]
    ∧ ∃ pre, writerRun (mkErrScript ds e) (fun _ => false)
        = pre ++ [WEvent.closeErr, WEvent.closeData] := by
  obtain ⟨h1, h2, h3⟩ := writerLoop_errAt ds e (fun _ => false) (fun _ => rfl)
  unfold writerRun
  rcases hl : writerLoop (mkErrScript ds e) (fun _ => false) with ⟨evs, out⟩
  rw [hl] at h1 h2 h3
  simp only at h1 h2 h3
  subst h3
  refine ⟨?_, ?_, ⟨evs, rfl⟩⟩
  · rw [delivered_append, h1]; simp [delivered]
  · rw [putErrs_append, h2]; simp [putErrs]

/-- On an all-`hasNext` script with a consumer that accepts the first `m`
writes and has closed the channel at the following one, the loop delivers the
first `m` items, the (m+1)-th write observes `alreadyClosed = true`, exactly
`m + 1` producer calls are made, and the loop ends normally. -/
lemma writerLoop_closedAt (ds : List Datapack) (m : Nat) (w : Nat → Bool)
    (hm : m < ds.length) (hlt : ∀ i, i < m → w i = false) (hw : w m = true) :
    nextCount (writerLoop (allMore ds) w).1 = m + 1
    ∧ delivered (writerLoop (allMore ds) w).1 = ds.take m
    ∧ rejected (writerLoop (allMore ds) w).1 = [ds.get ⟨m, hm⟩]
    ∧ (writerLoop (allMore ds) w).2 = WriterEnd.normal := by
  induction ds generalizing m w with
  | nil => simp at hm
  | cons d rest ih =>
    have hcons : allMore (d :: rest)
        = Except.ok ⟨some d, true, none⟩ :: allMore rest := rfl
    rw [hcons]
    cases m with
    | zero =>
      refine ⟨?_, ?_, ?_, ?_⟩ <;>
        simp only [writerLoop, hw, if_true]
      · rw [nextCount_cons_next, nextCount_cons_write, nextCount_nil]
      · simp [delivered]
      · simp [rejected, List.get]
    | succ n =>
      have hw0 : w 0 = false := hlt 0 (Nat.succ_pos n)
      have hm₂ : n < rest.length := Nat.lt_of_succ_lt_succ hm
      obtain ⟨h1, h2, h3, h4⟩ := ih n (fun i => w (i + 1)) hm₂
        (fun i hi => hlt (i + 1) (Nat.succ_lt_succ hi)) hw
      refine ⟨?_, ?_, ?_, ?_⟩ <;>
        simp only [writerLoop, hw0, Bool.false_eq_true, if_false, Bool.not_true]
      · rw [nextCount_cons_next, nextCount_cons_write, h1]
      · rw [delivered_cons_next, delivered_cons_write_true, h2, List.take_succ_cons]
      · rw [rejected_cons_next, rejected_cons_write_true, h3]
        rfl
      · exact h4

/-- C8: if, while the Safe Producer Stage runs an all-`hasMore` producer, the
downstream consumer has closed the output data channel once `m` items were
accepted, then the stage's next write observes `alreadyClosed = true`, the
producer's `Next` is called exactly `m + 1` times (never again after the
rejected write), only the first `m` items are delivered, and the stage closes
its error channel followed by its data channel. -/
theorem C8_consumer_close (ds : List Datapack) (m : Nat) (hm : m < ds.length) :
    nextCount (writerRun (allMore ds) (fun i => decide (m ≤ i))) = m + 1
    ∧ delivered (writerRun (allMore ds) (fun i => decide (m ≤ i))) = ds.take m
    ∧ rejected (writerRun (allMore ds) (fun i => decide (m ≤ i))) = [ds.get ⟨m, hm⟩]
    ∧ ∃ pre, writerRun (allMore ds) (fun i => decide (m ≤ i))
        = pre ++ [WEvent.closeErr, WEvent.closeData] := by
  obtain ⟨h1, h2, h3, h4⟩ := writerLoop_closedAt ds m (fun i => decide (m ≤ i)) hm
    (fun i hi => by simp [Nat.not_le.mpr hi]) (by simp)
  unfold writerRun
  rcases hl : writerLoop (allMore ds) (fun i => decide (m ≤ i)) with ⟨evs, out⟩
  rw [hl] at h1 h2 h3 h4
  simp only at h1 h2 h3 h4
  subst h4
  refine ⟨?_, ?_, ?_, ⟨evs, rfl⟩⟩
  · rw [nextCount_append, h1]; simp [nextCount]
  · rw [delivered_append, h2]; simp [delivered]
  · rw [rejected_append, h3]; simp [rejected]

/-- Witness for C8_consumer_close: two items, consumer closes after one. -/
theorem C8_consumer_close_witness :
    nextCount (writerRun (allMore [⟨some 0, 0⟩, ⟨some 1, 1⟩])
        (fun i => decide (1 ≤ i))) = 1 + 1
    ∧ delivered (writerRun (allMore [⟨some 0, 0⟩, ⟨some 1, 1⟩])
        (fun i => decide (1 ≤ i))) = [⟨some 0, 0⟩]
    ∧ rejected (writerRun (allMore [⟨some 0, 0⟩, ⟨some 1, 1⟩])
        (fun i => decide (1 ≤ i))) = [⟨some 1, 1⟩]
    ∧ ∃ pre, writerRun (allMore [⟨some 0, 0⟩, ⟨some 1, 1⟩])
        (fun i => decide (1 ≤ i)) = pre ++ [WEvent.closeErr, WEvent.closeData] := by
  obtain ⟨h1, h2, h3, h4⟩ :=
    C8_consumer_close [⟨some 0, 0⟩, ⟨some 1, 1⟩] 1 (by simp)
  exact ⟨h1, by simpa using h2, by simpa using h3, h4⟩

/-- Events performed by the `SafeIOStreamHandler` goroutine
(`safe.go:111-155`), in program order.  `readItem d` records a
`s.inputStream.Read()` that returned item `d`; `readClosed` one that reported
closure; `handle k` the k-th invocation of the configured handler;
`put e` a `Put` on the *output* error channel; `closeInput` a
`s.inputStream.Close()`; `closeErr` / `closeData` the closes of the output
error / data channel; `finalize` the finalizer call. -/
inductive HEvent where
  | readItem : Datapack → HEvent
  | readClosed : HEvent
  | handle : Nat → HEvent
  | put : GoErr → HEvent
  | closeInput : HEvent
  | closeErr : HEvent
  | closeData : HEvent
  | finalize : HEvent
deriving DecidableEq

/-- How the `SafeIOStreamHandler` main loop (`safe.go:127-142`) ended:
by observing upstream closure, by a handler error (put and then `break`), or
by a runtime fault inside a handler call. -/
inductive MainEnd where
  | upstreamClosed : MainEnd
  | errStop : GoErr → MainEnd
  | panicked : PanicInfo → MainEnd
deriving DecidableEq

/-- A handler behaviour: the k-th invocation returns `.ok none` (success),
`.ok (some e)` (a handler error) or `.error info` (a runtime fault / panic). -/
abbrev Handler := Nat → Except PanicInfo (Option GoErr)

/-- The main loop of `SafeIOStreamHandler.Start` (`safe.go:127-142`),
translated line by line.  Modelled from the spec (section 4.1) for the input
channel: `Read` yields the upstream items in order and then reports closure;
`items` is that sequence.  Each iteration: `Read`; on closure `break`; skip
items whose `ReadCloser()` is nil; otherwise invoke the handler; on a non-null
handler error, `Put` it on the output error channel and `break`.  `k` counts
handler invocations made so far. -/
def handlerLoop : List Datapack → Handler → Nat → List HEvent × MainEnd
  | [], _, _ => ([HEvent.readClosed], MainEnd.upstreamClosed)
  | d :: rest, h, k =>
      match d.readCloser with
      | none =>
          let p := handlerLoop rest h k
          (HEvent.readItem d :: p.1, p.2)
      | some _ =>
          match h k with
          | Except.error info =>
              ([HEvent.readItem d, HEvent.handle k], MainEnd.panicked info)
          | Except.ok (some e) =>
              ([HEvent.readItem d, HEvent.handle k, HEvent.put e], MainEnd.errStop e)
          | Except.ok none =>
              let p := handlerLoop rest h (k + 1)
              (HEvent.readItem d :: HEvent.handle k :: p.1, p.2)

/-- The outcome of the main loop started at invocation counter 0. -/
def mainOutcome (items : List Datapack) (h : Handler) : MainEnd :=
  (handlerLoop items h 0).2

/-- Whether a main-loop outcome is a runtime fault. -/
def isPanicked : MainEnd → Bool
  | MainEnd.panicked _ => true
  | _ => false

/-- The full event trace of the goroutine launched by
`SafeIOStreamHandler.Start` (`safe.go:111-155`): the main loop; then — only
when the main loop ended without a fault — the drain loop (`safe.go:145-153`),
which `Check`s the upstream error channel until done and relays each non-null
error (modelled from the spec, section 4.2: `upErrs` is the sequence of
errors the upstream stage put before closing its error channel; all of them
are non-null); then the deferred block (`safe.go:113-125`) — on a recovered
panic, close the *upstream* data channel and `Put` the wrapped panic error;
in every case close the output error channel, close the output data channel,
and call the finalizer when one is configured.  A panic raised in the main
loop jumps directly to the deferred block, skipping the drain loop. -/
def handlerRun (items : List Datapack) (h : Handler) (upErrs : List GoErr)
    (hasFinalizer : Bool) : List HEvent :=
  let fin := if hasFinalizer then [HEvent.finalize] else []
  match handlerLoop items h 0 with
  | (evs, MainEnd.panicked info) =>
      evs ++ [HEvent.closeInput, HEvent.put (GoErr.handlerPanic info),
        HEvent.closeErr, HEvent.closeData] ++ fin
  | (evs, _) =>
      evs ++ upErrs.map HEvent.put ++ [HEvent.closeErr, HEvent.closeData] ++ fin

/-- The errors put on the output error channel, in order. -/
def hputs (t : List HEvent) : List GoErr :=
  t.filterMap fun e =>
    match e with
    | HEvent.put e₀ => some e₀
    | _ => none

/-- The items returned by `Read` from the upstream data channel, in order. -/
def readItems (t : List HEvent) : List Datapack :=
  t.filterMap fun e =>
    match e with
    | HEvent.readItem d => some d
    | _ => none

/-- Events the main loop can emit: reads, handler invocations and error puts —
never a close or a finalizer call. -/
def isMainLoopEv : HEvent → Bool
  | HEvent.readItem _ => true
  | HEvent.readClosed => true
  | HEvent.handle _ => true
  | HEvent.put _ => true
  | _ => false

lemma handlerLoop_mainLoopEv (items : List Datapack) (h : Handler) (k : Nat) :
    ∀ e ∈ (handlerLoop items h k).1, isMainLoopEv e = true := by
  induction items generalizing k with
  | nil => intro e he; simp [handlerLoop] at he; subst he; rfl
  | cons d rest ih =>
    intro e he
    rcases hd : d.readCloser with _ | rc
    · simp only [handlerLoop, hd] at he
      rcases (List.mem_cons).1 he with h₁ | h₁
      · subst h₁; rfl
      · exact ih k e h₁
    · rcases hh : h k with info | o
      · simp only [handlerLoop, hd, hh] at he
        rcases (List.mem_cons).1 he with h₁ | h₁
        · subst h₁; rfl
        · rcases (List.mem_cons).1 h₁ with h₂ | h₂
          · subst h₂; rfl
          · simp at h₂
      · cases o with
        | none =>
          simp only [handlerLoop, hd, hh] at he
          rcases (List.mem_cons).1 he with h₁ | h₁
          · subst h₁; rfl
          · rcases (List.mem_cons).1 h₁ with h₂ | h₂
            · subst h₂; rfl
            · exact ih (k + 1) e h₂
        | some e₀ =>
          simp only [handlerLoop, hd, hh] at he
          rcases (List.mem_cons).1 he with h₁ | h₁
          · subst h₁; rfl
          · rcases (List.mem_cons).1 h₁ with h₂ | h₂
            · subst h₂; rfl
            · rcases (List.mem_cons).1 h₂ with h₃ | h₃
              · subst h₃; rfl
              · simp at h₃

lemma handlerLoop_no_closeErr (items : List Datapack) (h : Handler) (k : Nat) :
    HEvent.closeErr ∉ (handlerLoop items h k).1 := fun hmem =>
  by simpa [isMainLoopEv] using handlerLoop_mainLoopEv items h k _ hmem

lemma handlerLoop_no_closeData (items : List Datapack) (h : Handler) (k : Nat) :
    HEvent.closeData ∉ (handlerLoop items h k).1 := fun hmem =>
  by simpa [isMainLoopEv] using handlerLoop_mainLoopEv items h k _ hmem

lemma handlerLoop_no_closeInput (items : List Datapack) (h : Handler) (k : Nat) :
    HEvent.closeInput ∉ (handlerLoop items h k).1 := fun hmem =>
  by simpa [isMainLoopEv] using handlerLoop_mainLoopEv items h k _ hmem

lemma handlerLoop_no_finalize (items : List Datapack) (h : Handler) (k : Nat) :
    HEvent.finalize ∉ (handlerLoop items h k).1 := fun hmem =>
  by simpa [isMainLoopEv] using handlerLoop_mainLoopEv items h k _ hmem

/-- Shape of a run whose main loop did not fault: main-loop events, the full
drain of the upstream errors, then the cleanup closes and the finalizer. -/
lemma handlerRun_of_not_panicked (items : List Datapack) (h : Handler)
    (upErrs : List GoErr) (f : Bool)
    (hnp : isPanicked (mainOutcome items h) = false) :
    handlerRun items h upErrs f
      = (handlerLoop items h 0).1 ++ upErrs.map HEvent.put
        ++ [HEvent.closeErr, HEvent.closeData]
        ++ (if f then [HEvent.finalize] else []) := by
  unfold mainOutcome at hnp
  unfold handlerRun
  rcases hl : handlerLoop items h 0 with ⟨evs, out⟩
  rw [hl] at hnp
  cases out with
  | panicked info => simp [isPanicked] at hnp
  | upstreamClosed => simp
  | errStop e => simp

/-- Shape of a run whose main loop faulted: main-loop events, the upstream
data-channel close, the wrapped fault error, then the cleanup closes and the
finalizer — the drain loop is skipped. -/
lemma handlerRun_of_panicked (items : List Datapack) (h : Handler)
    (upErrs : List GoErr) (f : Bool) (info : PanicInfo)
    (hp : mainOutcome items h = MainEnd.panicked info) :
    handlerRun items h upErrs f
      = (handlerLoop items h 0).1
        ++ [HEvent.closeInput, HEvent.put (GoErr.handlerPanic info),
          HEvent.closeErr, HEvent.closeData]
        ++ (if f then [HEvent.finalize] else []) := by
  unfold mainOutcome at hp
  unfold handlerRun
  rcases hl : handlerLoop items h 0 with ⟨evs, out⟩
  rw [hl] at hp
  simp only at hp
  subst hp
  simp

/-- C1, amended: in every Safe Transform Stage run whose main loop ends
without a runtime fault (upstream closure or a handler error), every error the
stage puts reaches the output error channel, and every error buffered on the
upstream error channel is drained and relayed to the output error channel
before the stage closes its own output error channel.  (In a run that ends in
a runtime fault the wrapped fault error is put, but the drain loop is skipped,
so upstream-buffered errors are not relayed.) -/
theorem C1_amended_drain (items : List Datapack) (h : Handler)
    (upErrs : List GoErr) (f : Bool)
    (hnp : isPanicked (mainOutcome items h) = false) :
    ∃ pre, handlerRun items h upErrs f
        = pre ++ upErrs.map HEvent.put
          ++ [HEvent.closeErr, HEvent.closeData]
          ++ (if f then [HEvent.finalize] else [])
      ∧ HEvent.closeErr ∉ pre := by
  refine ⟨(handlerLoop items h 0).1,
    handlerRun_of_not_panicked items h upErrs f hnp,
    handlerLoop_no_closeErr items h 0⟩

/-- Witness for C1_amended_drain: one item handled cleanly, one buffered
upstream error, a finalizer configured. -/
theorem C1_amended_drain_witness :
    ∃ pre, handlerRun [⟨some 0, 0⟩] (fun _ => Except.ok none) [GoErr.user 5] true
        = pre ++ [GoErr.user 5].map HEvent.put
          ++ [HEvent.closeErr, HEvent.closeData]
          ++ (if true then [HEvent.finalize] else [])
      ∧ HEvent.closeErr ∉ pre :=
  C1_amended_drain [⟨some 0, 0⟩] (fun _ => Except.ok none) [GoErr.user 5] true rfl

/-- C1 is false as stated: in a run that ends in a runtime fault (handler
panics on the only item) with one error buffered upstream, the buffered
upstream error is never relayed to the output error channel at all — the
drain loop (`safe.go:145-153`) is skipped because the panic jumps straight to
the deferred block. -/
theorem C1_counterexample :
    isPanicked (mainOutcome [⟨some 0, 0⟩] (fun _ => Except.error 7)) = true
    ∧ HEvent.put (GoErr.user 3)
        ∉ handlerRun [⟨some 0, 0⟩] (fun _ => Except.error 7) [GoErr.user 3] false :=
  ⟨rfl, by decide⟩

/-- Events the writer main loop can emit: producer calls, writes and error
puts — never a close. -/
def isWMainLoopEv : WEvent → Bool
  | WEvent.next => true
  | WEvent.write _ _ => true
  | WEvent.put _ => true
  | _ => false

lemma writerLoop_mainLoopEv (s : ProducerScript) (w : Nat → Bool) :
    ∀ e ∈ (writerLoop s w).1, isWMainLoopEv e = true := by
  induction s generalizing w with
  | nil => intro e he; simp [writerLoop] at he
  | cons hd tl ih =>
    intro e he
    cases hd with
    | error info =>
      simp only [writerLoop, List.mem_singleton] at he
      subst he; rfl
    | ok r =>
      rcases her : r.err with _ | e₀
      · rcases hdp : r.datapack with _ | d
        · simp only [writerLoop, her, hdp, List.mem_cons] at he
          rcases he with h₁ | h₁
          · subst h₁; rfl
          · exact ih w e h₁
        · by_cases hw : w 0
          · simp only [writerLoop, her, hdp, hw, if_true, List.mem_cons,
              List.not_mem_nil, or_false] at he
            rcases he with h₁ | h₁ <;> subst h₁ <;> rfl
          · by_cases hm : r.hasNext
            · simp only [writerLoop, her, hdp, hw, if_false, Bool.false_eq_true,
                hm, Bool.not_true, List.mem_cons] at he
              rcases he with h₁ | h₁
              · subst h₁; rfl
              · rcases h₁ with h₂ | h₂
                · subst h₂; rfl
                · exact ih (fun i => w (i + 1)) e h₂
            · simp only [Bool.not_eq_true] at hm
              simp only [writerLoop, her, hdp, hw, if_false, Bool.false_eq_true,
                hm, Bool.not_false, if_true, List.mem_cons, List.not_mem_nil,
                or_false] at he
              rcases he with h₁ | h₁ <;> subst h₁ <;> rfl
      · simp only [writerLoop, her, List.mem_cons, List.not_mem_nil,
          or_false] at he
        rcases he with h₁ | h₁ <;> subst h₁ <;> rfl

lemma writerLoop_no_closeErr (s : ProducerScript) (w : Nat → Bool) :
    WEvent.closeErr ∉ (writerLoop s w).1 := fun hmem =>
  by simpa [isWMainLoopEv] using writerLoop_mainLoopEv s w _ hmem

lemma writerLoop_no_closeData (s : ProducerScript) (w : Nat → Bool) :
    WEvent.closeData ∉ (writerLoop s w).1 := fun hmem =>
  by simpa [isWMainLoopEv] using writerLoop_mainLoopEv s w _ hmem

/-- C9: in every run of either stage — ending normally, by error, or by
runtime fault — the cleanup path runs exactly once: the output error channel
is closed, then the output data channel, each exactly once; in the Safe
Transform Stage the finalizer, when configured, is invoked exactly once, after
both closes.  (For the producer stage the run must terminate, i.e. the finite
producer script must not be exhausted with the loop still going.) -/
theorem C9_cleanup_order :
    (∀ (s : ProducerScript) (w : Nat → Bool),
      (writerLoop s w).2 ≠ WriterEnd.exhausted →
      ∃ pre, writerRun s w = pre ++ [WEvent.closeErr, WEvent.closeData]
        ∧ WEvent.closeErr ∉ pre ∧ WEvent.closeData ∉ pre)
    ∧ ∀ (items : List Datapack) (h : Handler) (upErrs : List GoErr) (f : Bool),
      ∃ pre, handlerRun items h upErrs f
          = pre ++ [HEvent.closeErr, HEvent.closeData]
            ++ (if f then [HEvent.finalize] else [])
        ∧ HEvent.closeErr ∉ pre ∧ HEvent.closeData ∉ pre
        ∧ HEvent.finalize ∉ pre := by
  constructor
  · intro s w hne
    have hcE := writerLoop_no_closeErr s w
    have hcD := writerLoop_no_closeData s w
    unfold writerRun
    rcases hl : writerLoop s w with ⟨evs, out⟩
    rw [hl] at hne hcE hcD
    simp only at hne hcE hcD
    cases out with
    | exhausted => exact absurd rfl hne
    | normal => exact ⟨evs, rfl, hcE, hcD⟩
    | panicked info =>
      refine ⟨evs ++ [WEvent.put (GoErr.writerPanic info)], by simp, ?_, ?_⟩ <;>
        simp [hcE, hcD]
  · intro items h upErrs f
    have hcE := handlerLoop_no_closeErr items h 0
    have hcD := handlerLoop_no_closeData items h 0
    have hcF := handlerLoop_no_finalize items h 0
    rcases hout : mainOutcome items h with _ | e | info
    · rw [handlerRun_of_not_panicked items h upErrs f (by rw [hout]; rfl)]
      refine ⟨(handlerLoop items h 0).1 ++ upErrs.map HEvent.put, by simp, ?_, ?_, ?_⟩ <;>
        simp [hcE, hcD, hcF]
    · rw [handlerRun_of_not_panicked items h upErrs f (by rw [hout]; rfl)]
      refine ⟨(handlerLoop items h 0).1 ++ upErrs.map HEvent.put, by simp, ?_, ?_, ?_⟩ <;>
        simp [hcE, hcD, hcF]
    · rw [handlerRun_of_panicked items h upErrs f info hout]
      refine ⟨(handlerLoop items h 0).1
        ++ [HEvent.closeInput, HEvent.put (GoErr.handlerPanic info)], by simp, ?_, ?_, ?_⟩ <;>
        simp [hcE, hcD, hcF]

/-- Witness for C9_cleanup_order, producer part, at a concrete script. -/
theorem C9_cleanup_order_witness :
    ∃ pre, writerRun (mkExhaustScript [⟨some 0, 0⟩]) (fun _ => false)
        = pre ++ [WEvent.closeErr, WEvent.closeData]
      ∧ WEvent.closeErr ∉ pre ∧ WEvent.closeData ∉ pre :=
  C9_cleanup_order.1 (mkExhaustScript [⟨some 0, 0⟩]) (fun _ => false) (by decide)

/-- A main loop that ended with a handler error has put that error. -/
lemma handlerLoop_errStop_put (items : List Datapack) (h : Handler) (k : Nat)
    (e : GoErr) (he : (handlerLoop items h k).2 = MainEnd.errStop e) :
    HEvent.put e ∈ (handlerLoop items h k).1 := by
  induction items generalizing k with
  | nil => simp [handlerLoop] at he
  | cons d rest ih =>
    rcases hd : d.readCloser with _ | rc
    · simp only [handlerLoop, hd] at he ⊢
      exact List.mem_cons_of_mem _ (ih k he)
    · rcases hh : h k with info | o
      · simp only [handlerLoop, hd, hh] at he
        exact MainEnd.noConfusion he
      · cases o with
        | some e₀ =>
          simp only [handlerLoop, hd, hh] at he ⊢
          injection he with he₀
          subst he₀
          simp
        | none =>
          simp only [handlerLoop, hd, hh] at he ⊢
          exact List.mem_cons_of_mem _ (List.mem_cons_of_mem _ (ih (k + 1) he))

/-- C10: a Safe Transform Stage run in which the main loop ends without a
runtime fault — in particular one in which the handler returns a non-null
error — never closes the upstream data channel; the handler error, when there
is one, is put on the output error channel.  Closing the upstream data channel
happens only on the runtime-fault path. -/
theorem C10_no_upstream_close (items : List Datapack) (h : Handler)
    (upErrs : List GoErr) (f : Bool) :
    (isPanicked (mainOutcome items h) = false →
      HEvent.closeInput ∉ handlerRun items h upErrs f)
    ∧ ∀ e, mainOutcome items h = MainEnd.errStop e →
      HEvent.put e ∈ handlerRun items h upErrs f := by
  constructor
  · intro hnp
    rw [handlerRun_of_not_panicked items h upErrs f hnp]
    have hcI := handlerLoop_no_closeInput items h 0
    cases f <;> simp [hcI]
  · intro e he
    have hnp : isPanicked (mainOutcome items h) = false := by rw [he]; rfl
    rw [handlerRun_of_not_panicked items h upErrs f hnp]
    have := handlerLoop_errStop_put items h 0 e he
    simp [List.mem_append, this]

/-- Witness for C10_no_upstream_close: one item, handler returns an error. -/
theorem C10_no_upstream_close_witness :
    HEvent.closeInput
        ∉ handlerRun [⟨some 0, 0⟩] (fun _ => Except.ok (some (GoErr.user 4)))
            [GoErr.user 5] true
    ∧ HEvent.put (GoErr.user 4)
        ∈ handlerRun [⟨some 0, 0⟩] (fun _ => Except.ok (some (GoErr.user 4)))
            [GoErr.user 5] true :=
  ⟨(C10_no_upstream_close [⟨some 0, 0⟩] (fun _ => Except.ok (some (GoErr.user 4)))
      [GoErr.user 5] true).1 rfl,
   (C10_no_upstream_close [⟨some 0, 0⟩] (fun _ => Except.ok (some (GoErr.user 4)))
      [GoErr.user 5] true).2 (GoErr.user 4) rfl⟩

/-- Main loop behaviour when every item carries a byte stream, the handler
succeeds on its first `j` invocations (counting from start index `k`) and
faults on invocation `j`: the loop reads exactly the first `j + 1` items, puts
no error, invokes the handler only up to index `k + j`, and ends panicked. -/
lemma handlerLoop_panicAt (items : List Datapack) (h : Handler) (k j : Nat)
    (info : PanicInfo)
    (hall : ∀ d ∈ items, d.readCloser ≠ none)
    (hj : j < items.length)
    (hok : ∀ i, i < j → h (k + i) = Except.ok none)
    (hp : h (k + j) = Except.error info) :
    hputs (handlerLoop items h k).1 = []
    ∧ readItems (handlerLoop items h k).1 = items.take (j + 1)
    ∧ (∀ m, HEvent.handle m ∈ (handlerLoop items h k).1 → m ≤ k + j)
    ∧ (handlerLoop items h k).2 = MainEnd.panicked info := by
  induction items generalizing k j with
  | nil => simp at hj
  | cons d rest ih =>
    have hrc : d.readCloser ≠ none := hall d (List.mem_cons_self d rest)
    rcases hd : d.readCloser with _ | rc
    · exact absurd hd hrc
    cases j with
    | zero =>
      rw [Nat.add_zero] at hp
      refine ⟨?_, ?_, ?_, ?_⟩ <;>
        simp only [handlerLoop, hd, hp]
      · simp [hputs]
      · simp [readItems]
      · intro m hm
        simp only [List.mem_cons, List.not_mem_nil, or_false] at hm
        rcases hm with h₁ | h₁
        · exact absurd h₁ (by simp)
        · injection h₁ with h₂
          omega
    | succ n =>
      have h0 : h k = Except.ok none := by
        have := hok 0 (Nat.succ_pos n)
        rwa [Nat.add_zero] at this
      have hok₂ : ∀ i, i < n → h (k + 1 + i) = Except.ok none := by
        intro i hi
        have := hok (i + 1) (Nat.succ_lt_succ hi)
        rwa [show k + (i + 1) = k + 1 + i by omega] at this
      have hp₂ : h (k + 1 + n) = Except.error info := by
        rwa [show k + (n + 1) = k + 1 + n by omega] at hp
      have hall₂ : ∀ d₂ ∈ rest, d₂.readCloser ≠ none :=
        fun d₂ hmem => hall d₂ (List.mem_cons_of_mem d hmem)
      have hj₂ : n < rest.length := Nat.lt_of_succ_lt_succ hj
      obtain ⟨p1, p2, p3, p4⟩ := ih (k + 1) n hall₂ hj₂ hok₂ hp₂
      refine ⟨?_, ?_, ?_, ?_⟩ <;>
        simp only [handlerLoop, hd, h0]
      · simp only [hputs, List.filterMap_cons] at p1 ⊢
        exact p1
      · simp only [readItems, List.filterMap_cons] at p2 ⊢
        rw [p2, List.take_succ_cons]
      · intro m hm
        simp only [List.mem_cons] at hm
        rcases hm with h₁ | h₁
        · exact absurd h₁ (by simp)
        · rcases h₁ with h₂ | h₂
          · injection h₂ with h₃; omega
          · have := p3 m h₂
            omega
      · exact p4

/-- C5: if the handler raises a runtime fault at its (j+1)-th invocation (all
earlier invocations succeeding, every upstream item carrying a byte stream),
the Safe Transform Stage closes the upstream data channel, puts exactly one
error on its output error channel — the wrapped fault error — reads only the
first j+1 items, and never invokes the handler on item j+2. -/
theorem C5_fault_isolation (items : List Datapack) (h : Handler)
    (upErrs : List GoErr) (f : Bool) (j : Nat) (info : PanicInfo)
    (hall : ∀ d ∈ items, d.readCloser ≠ none)
    (hj : j < items.length)
    (hok : ∀ i, i < j → h i = Except.ok none)
    (hp : h j = Except.error info) :
    HEvent.closeInput ∈ handlerRun items h upErrs f
    ∧ hputs (handlerRun items h upErrs f) = [GoErr.handlerPanic info]
    ∧ readItems (handlerRun items h upErrs f) = items.take (j + 1)
    ∧ ∀ m, HEvent.handle m ∈ handlerRun items h upErrs f → m ≤ j := by
  have hok₀ : ∀ i, i < j → h (0 + i) = Except.ok none := by
    intro i hi
    rw [Nat.zero_add]
    exact hok i hi
  have hp₀ : h (0 + j) = Except.error info := by rwa [Nat.zero_add]
  obtain ⟨p1, p2, p3, p4⟩ := handlerLoop_panicAt items h 0 j info hall hj hok₀ hp₀
  have hout : mainOutcome items h = MainEnd.panicked info := p4
  rw [handlerRun_of_panicked items h upErrs f info hout]
  refine ⟨?_, ?_, ?_, ?_⟩
  · simp
  · simp only [hputs, List.filterMap_append] at p1 ⊢
    rw [p1]
    cases f <;> simp [hputs]
  · simp only [readItems, List.filterMap_append] at p2 ⊢
    rw [p2]
    cases f <;> simp [readItems]
  · intro m hm
    simp only [List.mem_append, List.mem_cons, List.not_mem_nil, or_false] at hm
    rcases hm with (h₁ | h₁) | h₁
    · rw [Nat.zero_add] at p3
      exact p3 m h₁
    · rcases h₁ with h₂ | h₂ | h₂ | h₂ <;> exact absurd h₂ (by simp)
    · cases f <;> simp at h₁

/-- Witness for C5_fault_isolation: three items, handler succeeds once and
panics on its second invocation. -/
theorem C5_fault_isolation_witness :
    HEvent.closeInput
        ∈ handlerRun [⟨some 0, 0⟩, ⟨some 1, 1⟩, ⟨some 2, 2⟩]
            (fun k => if k < 1 then Except.ok none else Except.error 9)
            [GoErr.user 6] true
    ∧ hputs (handlerRun [⟨some 0, 0⟩, ⟨some 1, 1⟩, ⟨some 2, 2⟩]
            (fun k => if k < 1 then Except.ok none else Except.error 9)
            [GoErr.user 6] true) = [GoErr.handlerPanic 9]
    ∧ readItems (handlerRun [⟨some 0, 0⟩, ⟨some 1, 1⟩, ⟨some 2, 2⟩]
            (fun k => if k < 1 then Except.ok none else Except.error 9)
            [GoErr.user 6] true) = [⟨some 0, 0⟩, ⟨some 1, 1⟩]
    ∧ ∀ m, HEvent.handle m
        ∈ handlerRun [⟨some 0, 0⟩, ⟨some 1, 1⟩, ⟨some 2, 2⟩]
            (fun k => if k < 1 then Except.ok none else Except.error 9)
            [GoErr.user 6] true → m ≤ 1 := by
  obtain ⟨p1, p2, p3, p4⟩ :=
    C5_fault_isolation [⟨some 0, 0⟩, ⟨some 1, 1⟩, ⟨some 2, 2⟩]
      (fun k => if k < 1 then Except.ok none else Except.error 9)
      [GoErr.user 6] true 1 9
      (by intro d hd; fin_cases hd <;> simp)
      (by simp)
      (by
        intro i hi
        have : i = 0 := by omega
        subst this
        rfl)
      rfl
  exact ⟨p1, p2, by simpa using p3, p4⟩

/-- The channel-pointer state of a `SafeIOStreamHandler` (`safe.go:63-68`).
Channels are represented by identifiers; `none` models a nil Go pointer.
`hasHandler` records whether `datapackHandler` is non-nil.  `nextId` models
the allocator: `NewIOStream()` and `NewErrorPasserWithCap(...)` return fresh
objects, given identifiers no existing channel has. -/
structure SafeIOStreamHandler where
  inputStream : Option Nat
  inputErr : Option Nat
  hasHandler : Bool
  outputStream : Option Nat
  outputErr : Option Nat
  nextId : Nat
deriving DecidableEq

/-- `SafeIOStreamHandler.BuildStream` (`safe.go:86-101`), translated line by
line: with a missing upstream pair it returns `(nil, nil)`; with no handler it
returns the upstream pair itself, untouched and storing nothing; otherwise it
allocates a fresh output stream and a fresh output error channel (whose
capacity is the upstream capacity plus 2), stores them on the stage and
returns them.  The returned pair is paired with the updated stage state. -/
def SafeIOStreamHandler.BuildStream (s : SafeIOStreamHandler) :
    (Option Nat × Option Nat) × SafeIOStreamHandler :=
  if s.inputStream = none ∨ s.inputErr = none then ((none, none), s)
  else if s.hasHandler = false then ((s.inputStream, s.inputErr), s)
  else ((some s.nextId, some (s.nextId + 1)),
    { s with outputStream := some s.nextId, outputErr := some (s.nextId + 1),
             nextId := s.nextId + 2 })

/-- What `SafeIOStreamHandler.Start` does before its goroutine body runs:
`launched` records that the `go func() {...}()` statement executed (it is
unconditional in the source), and `taskOutputStream` / `taskOutputErr` are the
local variables `outputStream, outputErr` captured by the goroutine closure —
the goroutine writes its puts and closes to these. -/
structure StartResult where
  launched : Bool
  taskOutputStream : Option Nat
  taskOutputErr : Option Nat
  finalState : SafeIOStreamHandler
deriving DecidableEq

/-- `SafeIOStreamHandler.Start` (`safe.go:103-111`, plus the unconditional
goroutine launch at line 111), translated line by line: read the locals
`outputStream, outputErr := s.outputStream, s.outputErr`; if either is nil,
call `BuildStream` (discarding its return value and leaving the locals as they
were); then launch the goroutine, which captures the locals. -/
def SafeIOStreamHandler.Start (s : SafeIOStreamHandler) : StartResult :=
  let outS := s.outputStream
  let outE := s.outputErr
  let s₁ := if outS = none ∨ outE = none then (SafeIOStreamHandler.BuildStream s).2 else s
  { launched := true
    taskOutputStream := outS
    taskOutputErr := outE
    finalState := s₁ }

/-- C3 fails on the code: for a stage with an upstream pair and a handler,
calling `Start` without a prior `BuildStream` does build the output pair
(stored on the stage), but the goroutine it launches captures the local
variables `outputStream, outputErr`, which were read *before* `BuildStream`
ran and are still nil — so the task's puts and closes do not go to the built
output pair. -/
theorem C3_start_ignores_built_pair :
    (SafeIOStreamHandler.Start ⟨some 0, some 1, true, none, none, 2⟩).finalState.outputStream
        = some 2
    ∧ (SafeIOStreamHandler.Start ⟨some 0, some 1, true, none, none, 2⟩).finalState.outputErr
        = some 3
    ∧ (SafeIOStreamHandler.Start ⟨some 0, some 1, true, none, none, 2⟩).taskOutputStream
        = none
    ∧ (SafeIOStreamHandler.Start ⟨some 0, some 1, true, none, none, 2⟩).taskOutputErr
        = none := by
  decide

/-- C4 fails on the code: for a stage with an upstream pair and no handler,
`BuildStream` does return the identical upstream pair and itself starts
nothing — but `Start`, if called, still launches a background task
(`safe.go:111` is unconditional), with nil captured output channels. -/
theorem C4_passthrough_start_launches_task :
    (SafeIOStreamHandler.BuildStream ⟨some 0, some 1, false, none, none, 2⟩).1
        = (some 0, some 1)
    ∧ (SafeIOStreamHandler.BuildStream ⟨some 0, some 1, false, none, none, 2⟩).2
        = ⟨some 0, some 1, false, none, none, 2⟩
    ∧ (SafeIOStreamHandler.Start ⟨some 0, some 1, false, none, none, 2⟩).launched
        = true := by
  decide

end SafeStream
